import Mathlib

-- Shallow embedding of the goat BitTorrent tracker's storage engine:
-- mapDb.go (MapDb, addMap, init, Write, Read, Shutdown), the DbManager
-- routing loop, and the record types with their SQL-backed methods
-- (Save, Seeders, Leechers, PeerList).

set_option autoImplicit false

-- ===== Entity record types (source: the record structs of the data file) =====

-- AnnounceLog struct: an announce to be logged to storage.
structure AnnounceLog where
  Id : Int
  InfoHash : String
  PeerId : String
  Ip : String
  Port : Int
  Uploaded : Int
  Downloaded : Int
  Left : Int
  Event : String
  Time : Int
  deriving DecidableEq

-- FileRecord struct: a file tracked by the tracker.
structure FileRecord where
  Id : Int
  InfoHash : String
  Verified : Bool
  Completed : Int
  CreateTime : Int
  UpdateTime : Int
  deriving DecidableEq

-- FileUserRecord struct: a file/user relationship record.
structure FileUserRecord where
  FileId : Int
  UserId : Int
  Active : Bool
  Completed : Bool
  Announced : Int
  Uploaded : Int
  Downloaded : Int
  Left : Int
  Time : Int
  deriving DecidableEq

-- UserRecord struct: a user on the tracker.
structure UserRecord where
  Id : Int
  Username : String
  Passkey : String
  TorrentLimit : Int
  deriving DecidableEq

-- The dynamic type of a Request's Data payload (Go: interface{}).
-- The map store's type switch names AnnounceLog, FileRecord and
-- FileUserRecord; any other runtime type falls into its default case,
-- represented here by the remaining constructors.
inductive RecordData where
  | announceLog (a : AnnounceLog)
  | fileRecord (f : FileRecord)
  | fileUserRecord (f : FileUserRecord)
  | userRecord (u : UserRecord)
  deriving DecidableEq

/-- Modelled from the spec: the Request struct itself is not among the
provided source files (only its uses in DbManager and in MapDb's
Read/Write are). Per the spec's data model it carries an optional Data
payload (absence = nil, a read-only operation), an identifying key, and
an operation kind. Only the Data field is consulted by the code under
verification. -/
structure Request where
  Data : Option RecordData
  Key : String
  deriving DecidableEq

-- ===== MapDb (source: mapDb.go) =====

-- Go: map[string]interface{} holding stored records, embedded as an
-- association list from keys to record payloads.
abbrev StorMap := List (String × RecordData)

-- MapDb struct: Id, Busy flag, MapStor (nil-able map) and MapLookup
-- (nil-able map); Option none embeds a nil Go map.
structure MapDb where
  Id : String
  Busy : Bool
  MapStor : Option StorMap
  MapLookup : Option StorMap
  deriving DecidableEq

/-- MapDb.Write translated from the source: a type switch on req.Data
with AnnounceLog, FileRecord and FileUserRecord cases, every case body
(including default) empty, so the receiver is returned unchanged and no
entry is ever added to MapStor. -/
def MapDb.Write (db : MapDb) (req : Request) : MapDb :=
  match req.Data with
  | some (RecordData.announceLog _) => db
  | some (RecordData.fileRecord _) => db
  | some (RecordData.fileUserRecord _) => db
  | _ => db

/-- MapDb.Read translated from the source: the same empty type switch on
req.Data; no case consults MapStor and the function has no return value,
so the caller-visible state is the unchanged receiver. -/
def MapDb.Read (db : MapDb) (req : Request) : MapDb :=
  match req.Data with
  | some (RecordData.announceLog _) => db
  | some (RecordData.fileRecord _) => db
  | some (RecordData.fileUserRecord _) => db
  | _ => db

-- Value stored under key k in a MapDb's MapStor (none when the map is
-- nil or the key is absent): the "read returns stored value or
-- not-found" observation the claims speak about.
def MapDb.storedAt (db : MapDb) (k : String) : Option RecordData :=
  match db.MapStor with
  | none => none
  | some m => (m.find? (fun p => p.1 == k)).map Prod.snd

/-- addMap translated from the source: one invocation loops i = 0..15,
allocates a child container for each i, and unconditionally spawns
`go addMap(child, size-1)` — there is no test of size before recursing.
This function returns the budgets of the 16 recursive calls spawned by a
single invocation with budget size. -/
def addMapSpawn (size : Int) : List Int :=
  (List.range 16).map (fun _ => size - 1)

-- strconv.Itoa restricted to the loop range 0 <= i < 100 (the source
-- loop only passes 0..15): ASCII codes of the decimal digits of n.
def itoaBytes (n : Nat) : List Nat :=
  if n < 10 then [48 + n] else [48 + n / 10, 48 + n % 10]

-- Lower-case hexadecimal digit character for n < 16 (hex package
-- alphabet 0-9a-f).
def hexDigitChar (n : Nat) : Char :=
  if n < 10 then Char.ofNat (48 + n) else Char.ofNat (87 + n)

-- hex.EncodeToString of a byte list: two lower-case hex digits per byte.
def hexEncodeToString (bs : List Nat) : String :=
  String.mk (bs.flatMap (fun b => [hexDigitChar (b / 16), hexDigitChar (b % 16)]))

/-- The key under which addMap files child i of a container, translated
from the source line c := hex.EncodeToString([]byte(strconv.Itoa(i))):
the hex encoding of the ASCII bytes of the decimal rendering of i. -/
def childKey (i : Nat) : String :=
  hexEncodeToString (itoaBytes i)

-- The 16 child keys one addMap invocation creates.
def addMapKeys : List String :=
  (List.range 16).map childKey

-- The 16 single-character hexadecimal digit keys the spec describes.
def hexDigitKeys : List String :=
  (List.range 16).map (fun i => String.mk [hexDigitChar i])

/-- MapDb.Shutdown's busy-wait loop, translated from the source: the
receiver is a value (a copy), the loop body is only time.Sleep and so
never changes db, hence the condition db.Busy is the same at every
iteration. Fuel counts permitted iterations: some logs means the loop
exited and sent "stopping MapDb" to the log channel within the fuel,
none means it was still spinning. -/
def shutdownLoop : Nat → MapDb → Option (List String)
  | 0, db => if db.Busy then none else some ["stopping MapDb"]
  | n + 1, db => if db.Busy then shutdownLoop n db else some ["stopping MapDb"]

-- ===== MapDb.init (value receiver) =====

/-- The local receiver copy at the end of MapDb.init's body, paired with
the number of map allocations the body performed, translated from the
source: if MapStor is nil, allocate it (the trie population by addMap is
the subject of addMapSpawn and is abstracted to the freshly made empty
container here); if MapLookup is nil, allocate it. -/
def MapDb.initLocal (db : MapDb) : MapDb × Nat :=
  let stor : Option StorMap × Nat :=
    match db.MapStor with
    | none => (some [], 1)
    | some m => (some m, 0)
  let look : Option StorMap × Nat :=
    match db.MapLookup with
    | none => (some [], 1)
    | some m => (some m, 0)
  (MapDb.mk db.Id db.Busy stor.1 look.1, stor.2 + look.2)

/-- Caller-visible effect of db.init(): init is declared on a value
receiver, so the method body mutates a copy and the caller's MapDb is
unchanged when the call returns. -/
def MapDb.initCall (db : MapDb) : MapDb := db

-- A sequence of n successive init calls on the same caller variable:
-- returns the caller's final state and the total number of allocations
-- performed across all calls.
def initSeq : Nat → MapDb → MapDb × Nat
  | 0, db => (db, 0)
  | n + 1, db =>
    let once := MapDb.initLocal db
    let rest := initSeq n (MapDb.initCall db)
    (rest.1, once.2 + rest.2)

-- A MapDb as DbManager constructs it (new(MapDb): zero value, both maps
-- nil).
def freshMapDb : MapDb := MapDb.mk "" false none none

-- ===== DbManager routing (source: the database manager file) =====

-- Which inbound channel a request arrives on: Static.RequestChan
-- (general) or Static.PersistentChan (persistent intent).
inductive Inbound where
  | general (r : Request)
  | persistent (r : Request)

-- Config flags read by DbManager (Static.Config.Map, Static.Config.Sql)
-- and the trie capacity (Static.Config.Size).
structure Config where
  Map : Bool
  Sql : Bool
  Size : Nat

/-- One iteration of DbManager's routing loop, translated from the
source's four branches: returns the requests sent to mapRequestChan and
to sqlRequestChan for one inbound arrival. Both enabled: a general
request goes to the map channel, and additionally to the sql channel
when its Data is non-nil; a persistent-channel request goes to the sql
channel. Map-only: general requests go to the map channel (the select
never receives from the persistent channel). Sql-only: general requests
go to the sql channel. Neither: no routing (a log notice only). -/
def routeStep (c : Config) : Inbound → List Request × List Request
  | Inbound.general r =>
    if c.Map && c.Sql then
      if r.Data = none then ([r], []) else ([r], [r])
    else if c.Map then ([r], [])
    else if c.Sql then ([], [r])
    else ([], [])
  | Inbound.persistent r =>
    if c.Map && c.Sql then ([], [r])
    else ([], [])

-- ===== Persistent store Save methods (source: the record data file) =====

-- Outcome of the external SQL operations one Save performs: DbConnect
-- (connErr), the single statement execution inside the transaction
-- (execErr; sqlx's Execl logs the error itself), and Commit (whose
-- error value the source discards).
structure SqlOutcome where
  connErr : Option String
  execErr : Option String
  commitOk : Bool

-- A Save call's observable result: the returned Bool and the messages
-- sent to Static.LogChan.
structure SaveOut where
  ok : Bool
  log : List String
  deriving DecidableEq

/-- AnnounceLog.Save translated from the source: on connection error the
message is logged and false is returned; otherwise MustBegin, one Execl
(which logs any execution error but whose failure Save does not
observe), a Commit whose error is discarded, and an unconditional
return true. -/
def AnnounceLog.Save (_a : AnnounceLog) (o : SqlOutcome) : SaveOut :=
  match o.connErr with
  | some e => SaveOut.mk false [e]
  | none =>
    match o.execErr with
    | some e => SaveOut.mk true [e]
    | none => SaveOut.mk true []

/-- FileUserRecord.Save translated from the source: identical control
flow to AnnounceLog.Save (connection error logged and false returned;
otherwise one logged-but-unobserved Execl, a discarded Commit error, and
return true). -/
def FileUserRecord.Save (_f : FileUserRecord) (o : SqlOutcome) : SaveOut :=
  match o.connErr with
  | some e => SaveOut.mk false [e]
  | none =>
    match o.execErr with
    | some e => SaveOut.mk true [e]
    | none => SaveOut.mk true []

-- ===== Seeders / Leechers (source: FileRecord query methods) =====

-- A row of the files_users table (columns the queries consult).
structure FilesUsersRow where
  file_id : Int
  user_id : Int
  active : Bool
  completed : Bool
  left : Int
  deriving DecidableEq

-- A row of the files table (columns the claims' restriction needs).
structure FileRow where
  id : Int
  info_hash : String
  deriving DecidableEq

-- The relational tables the queries run against.
structure SqlTables where
  files : List FileRow
  files_users : List FilesUsersRow

/-- FileRecord.Seeders translated from the source query
SELECT COUNT(user_id) FROM files_users WHERE active = 1 AND
completed = 1 AND left = 0 — note the WHERE clause contains no file
restriction, so the receiver f is not consulted, and COUNT(user_id)
counts matching rows, not distinct users. -/
def FileRecord.Seeders (_f : FileRecord) (t : SqlTables) : Nat :=
  (t.files_users.filter (fun r => r.active && r.completed && r.left == 0)).length

/-- FileRecord.Leechers translated from the source query
SELECT COUNT(user_id) FROM files_users WHERE active = 1 AND
completed = 0 AND left > 0 — again with no file restriction. -/
def FileRecord.Leechers (_f : FileRecord) (t : SqlTables) : Nat :=
  (t.files_users.filter (fun r => r.active && !r.completed && decide (0 < r.left))).length

/-- The count the claim describes (written to the claim's words, for
comparison with the source-translated FileRecord.Seeders): distinct
users with active=1, completed=1, left=0 among rows of the file whose
info hash is f's. -/
def seedersOfHash (f : FileRecord) (t : SqlTables) : Nat :=
  ((t.files_users.filter (fun r =>
      r.active && r.completed && r.left == 0 &&
      t.files.any (fun fr => fr.info_hash == f.InfoHash && fr.id == r.file_id))).map
    (fun r => r.user_id)).dedup.length

/-- The count the claim describes for leechers (claim's words): distinct
users with active=1, completed=0, left>0 among rows of the file whose
info hash is f's. -/
def leechersOfHash (f : FileRecord) (t : SqlTables) : Nat :=
  ((t.files_users.filter (fun r =>
      r.active && !r.completed && decide (0 < r.left) &&
      t.files.any (fun fr => fr.info_hash == f.InfoHash && fr.id == r.file_id))).map
    (fun r => r.user_id)).dedup.length

-- ===== Compact peer list encoder (source: FileRecord.PeerList) =====

-- A row returned by the peer query: announce_log.ip (text) and
-- announce_log.port (uint16, embedded as Nat with wraparound applied at
-- the 2-byte encoding).
structure PeerRow where
  Ip : String
  Port : Nat
  deriving DecidableEq

-- Decimal value of a digit sequence: none when empty or when any
-- character is not an ASCII digit.
def decVal? (cs : List Char) : Option Nat :=
  match cs with
  | [] => none
  | _ :: _ =>
    cs.foldl
      (fun acc c =>
        match acc with
        | none => none
        | some n =>
          if 48 ≤ c.toNat && c.toNat ≤ 57 then some (10 * n + (c.toNat - 48)) else none)
      (some 0)

-- One dotted-quad field: a nonempty run of decimal digits whose value
-- is at most 255 (net.ParseIP's IPv4 field rule).
def decOctet? (cs : List Char) : Option Nat :=
  match decVal? cs with
  | some n => if n ≤ 255 then some n else none
  | none => none

-- Split a character list into the groups separated by the dot
-- character (ASCII 46).
def splitDots : List Char → List (List Char)
  | [] => [[]]
  | c :: rest =>
    if c = Char.ofNat 46 then [] :: splitDots rest
    else
      match splitDots rest with
      | [] => [[c]]
      | g :: gs => (c :: g) :: gs

/-- net.ParseIP(s).To4() for the dotted-quad form: four dot-separated
decimal fields each between 0 and 255 give the four address octets;
anything else yields nil, embedded as none. -/
def parseIPv4 (s : String) : Option (List Nat) :=
  match splitDots s.data with
  | [a, b, c, d] =>
    match decOctet? a, decOctet? b, decOctet? c, decOctet? d with
    | some x, some y, some z, some w => some [x, y, z, w]
    | _, _, _, _ => none
  | _ => none

-- binary.BigEndian.PutUint16 of the row's port: high byte then low
-- byte (uint16 wraparound via % 2^16 made explicit).
def portBytesBE (port : Nat) : List Nat :=
  [port % 65536 / 256, port % 256]

/-- Processing of one row of the loop body in FileRecord.PeerList,
translated from the source: net.ParseIP(peer.Ip).To4() feeds
binary.BigEndian.Uint32, whose PutUint32 round-trip appends the four
address octets, then PutUint16 appends the two port bytes. When the IP
is not a valid IPv4 dotted quad, ParseIP (or To4) yields nil and
binary.BigEndian.Uint32 indexes past the end of a nil slice — a runtime
panic, embedded as none. -/
def encodePeerRow (r : PeerRow) : Option (List Nat) :=
  match parseIPv4 r.Ip with
  | none => none
  | some octets => some (octets ++ portBytesBE r.Port)

-- The row iteration of FileRecord.PeerList with its accumulating
-- buffer: appends each row's 6 bytes to buf; a row whose IP fails to
-- parse panics the call (none).
def peerListLoop : List PeerRow → List Nat → Option (List Nat)
  | [], buf => some buf
  | r :: rest, buf =>
    match encodePeerRow r with
    | none => none
    | some bytes => peerListLoop rest (buf ++ bytes)

/-- FileRecord.PeerList's encoding of the rows the peer query returned
(the query itself — join, exclusion, limit — is the external SQL
collaborator; the rows are taken as input in query order): starts from
an empty buffer and folds every row through the compact encoder. -/
def FileRecord.PeerListBytes (rows : List PeerRow) : Option (List Nat) :=
  peerListLoop rows []

-- The 6 bytes a valid row contributes.
def rowBytes (r : PeerRow) : List Nat :=
  (parseIPv4 r.Ip).getD [] ++ portBytesBE r.Port

-- ===== Concrete instances used by counterexamples and witnesses =====

-- A concrete AnnounceLog.
def aEx : AnnounceLog := AnnounceLog.mk 1 "abc" "peerid" "1.2.3.4" 80 0 0 0 "started" 0

-- A concrete request carrying that AnnounceLog.
def reqEx : Request := Request.mk (some (RecordData.announceLog aEx)) "abc"

-- A MapDb whose maps are allocated and empty.
def dbEx : MapDb := MapDb.mk "" false (some []) (some [])

-- A concrete FileUserRecord.
def fuEx : FileUserRecord := FileUserRecord.mk 1 2 true true 1 0 0 0 0

-- Tables with two files: file 2 has one seeder (user 7) and one leecher
-- (user 8); file 1, with info hash aaa, has neither.
def tEx : SqlTables :=
  SqlTables.mk
    [FileRow.mk 1 "aaa", FileRow.mk 2 "bbb"]
    [FilesUsersRow.mk 2 7 true true 0, FilesUsersRow.mk 2 8 true false 100]

-- The FileRecord for file 1 (info hash aaa).
def fEx : FileRecord := FileRecord.mk 1 "aaa" true 0 0 0

-- ===== Theorems =====

-- Helper lemmas for the compact-encoding claim.

theorem parseIPv4_length (s : String) (o : List Nat) (h : parseIPv4 s = some o) :
    o.length = 4 := by
  unfold parseIPv4 at h
  split at h
  · split at h
    · cases h
      rfl
    · cases h
  · cases h

theorem rowBytes_length (r : PeerRow) (h : (parseIPv4 r.Ip).isSome) :
    (rowBytes r).length = 6 := by
  obtain ⟨o, ho⟩ := Option.isSome_iff_exists.mp h
  have h4 := parseIPv4_length r.Ip o ho
  simp [rowBytes, ho, portBytesBE, h4]

theorem peerListLoop_append (rows : List PeerRow) (buf : List Nat)
    (h : ∀ r, r ∈ rows → (parseIPv4 r.Ip).isSome) :
    peerListLoop rows buf = some (buf ++ rows.flatMap rowBytes) := by
  induction rows generalizing buf with
  | nil => simp [peerListLoop]
  | cons r rest ih =>
    have hr : (parseIPv4 r.Ip).isSome := h r (List.mem_cons_self r rest)
    obtain ⟨o, ho⟩ := Option.isSome_iff_exists.mp hr
    have ihr := ih (buf ++ (o ++ portBytesBE r.Port))
      (fun x hx => h x (List.mem_cons_of_mem r hx))
    simp [peerListLoop, encodePeerRow, ho, ihr, rowBytes, List.append_assoc]

/-- C1 counterexample: writing a request whose payload is an AnnounceLog
into a MapDb with an allocated, empty store leaves the MapDb — and in
particular its MapStor — unchanged and empty, so no key (the hash-derived
one included) holds the entity and a subsequent read finds nothing; the
claim that Write stores the entity under its hash-derived key is false. -/
theorem mapDb_write_stores_nothing :
    MapDb.Write dbEx reqEx = dbEx ∧
    (MapDb.Write dbEx reqEx).MapStor = some [] ∧
    MapDb.storedAt (MapDb.Write dbEx reqEx) reqEx.Key = none := by decide

/-- C1 amended: MapDb.Write and MapDb.Read are no-ops signalling no
error for every request — the type switch dispatches on AnnounceLog,
FileRecord and FileUserRecord, but every case body (the recognized types
as much as the default) is empty, so nothing is ever stored or read. -/
theorem mapDb_write_read_noop (db : MapDb) (req : Request) :
    MapDb.Write db req = db ∧ MapDb.Read db req = db := by
  obtain ⟨d, k⟩ := req
  cases d with
  | none => exact ⟨rfl, rfl⟩
  | some rd => cases rd <;> exact ⟨rfl, rfl⟩

/-- C2: the claim that addMap stops recursing when the remaining depth
reaches zero is contradicted by the code — an invocation with budget 0
still spawns 16 recursive calls (with budget -1), and every invocation
spawns exactly 16 regardless of its budget, so the recursion never
stops and the number of containers created is unbounded. -/
theorem addMap_recurses_at_zero :
    addMapSpawn 0 = List.replicate 16 (-1) ∧
    (∀ s : Int, (addMapSpawn s).length = 16) := by
  constructor
  · decide
  · intro s
    simp [addMapSpawn]

/-- C3: the claim that each container has 16 children keyed by single
hexadecimal digit characters 0-f is contradicted by the code — the key
for child i is hex.EncodeToString([]byte(strconv.Itoa(i))), so child 10
is keyed by the four-character string 3130 rather than the digit a, the
16 keys produced are 30..39 and 3130..3135, and none of them has length
one. -/
theorem addMap_child_keys_not_hex_digits :
    childKey 10 = "3130" ∧
    addMapKeys = ["30", "31", "32", "33", "34", "35", "36", "37", "38", "39",
      "3130", "3131", "3132", "3133", "3134", "3135"] ∧
    (addMapKeys.all (fun k => decide (k.length ≠ 1))) = true ∧
    hexDigitKeys = ["0", "1", "2", "3", "4", "5", "6", "7", "8", "9",
      "a", "b", "c", "d", "e", "f"] ∧
    addMapKeys ≠ hexDigitKeys := by decide

/-- C4: with both backends enabled, one routing iteration sends a
general-channel request to the map channel exactly once, sends it to the
sql channel exactly once when its payload is non-nil and not at all when
the payload is nil, and sends a persistent-channel request to the sql
channel only. -/
theorem dbManager_routing_fanout (n : Nat) (r : Request) :
    (routeStep (Config.mk true true n) (Inbound.general r)).1 = [r] ∧
    (routeStep (Config.mk true true n) (Inbound.general r)).2 =
      (if r.Data = none then [] else [r]) ∧
    routeStep (Config.mk true true n) (Inbound.persistent r) = ([], [r]) := by
  refine ⟨?_, ?_, by simp [routeStep]⟩ <;>
    by_cases h : r.Data = none <;> simp [routeStep, h]

/-- C5: the claim that a peer row with an invalid IPv4 address is
validated and skipped or failed without a crash is contradicted by the
code — net.ParseIP yields nil for such a row, To4 of nil is nil, and
binary.BigEndian.Uint32 then indexes past the end of the nil slice: a
runtime panic (embedded as none) that aborts the whole PeerList call. -/
theorem peerList_panics_on_invalid_ip :
    encodePeerRow (PeerRow.mk "notanip" 6881) = none ∧
    FileRecord.PeerListBytes
      [PeerRow.mk "192.0.2.1" 6881, PeerRow.mk "notanip" 6881] = none := by decide

/-- C6: the claim that Seeders and Leechers are restricted to the file's
info hash is contradicted by the code — their WHERE clauses mention only
the flag columns, so for file aaa (which has no seeders and no leechers)
both methods return 1, counting the seeder and leecher rows of the
unrelated file bbb, while the per-hash counts of the claim are 0. -/
theorem seeders_leechers_ignore_file :
    FileRecord.Seeders fEx tEx = 1 ∧ seedersOfHash fEx tEx = 0 ∧
    FileRecord.Leechers fEx tEx = 1 ∧ leechersOfHash fEx tEx = 0 := by decide

/-- C7: for every sequence of peer rows whose IPs parse as IPv4, the
compact encoder emits exactly the concatenation, in row order, of 6
bytes per row — the 4 address octets then the 2 big-endian port bytes —
so the buffer length is 6 times the row count. -/
theorem peerList_compact_encoding (rows : List PeerRow)
    (h : ∀ r, r ∈ rows → (parseIPv4 r.Ip).isSome) :
    FileRecord.PeerListBytes rows = some (rows.flatMap rowBytes) ∧
    (rows.flatMap rowBytes).length = 6 * rows.length := by
  constructor
  · simpa [FileRecord.PeerListBytes] using peerListLoop_append rows [] h
  · induction rows with
    | nil => simp
    | cons r rest ih =>
      have h6 : (rowBytes r).length = 6 := rowBytes_length r (h r (List.mem_cons_self r rest))
      have ihr := ih (fun x hx => h x (List.mem_cons_of_mem r hx))
      simp only [List.flatMap_cons, List.length_append, List.length_cons, h6, ihr]
      omega

/-- C7 witness: at the two concrete peers of the claim the encoder
output is exactly the 12 bytes C0 00 02 01 1A E1 CB 00 71 05 C8 D5. -/
theorem peerList_compact_encoding_witness :
    FileRecord.PeerListBytes [PeerRow.mk "192.0.2.1" 6881, PeerRow.mk "203.0.113.5" 51413] =
      some [0xC0, 0x00, 0x02, 0x01, 0x1A, 0xE1, 0xCB, 0x00, 0x71, 0x05, 0xC8, 0xD5] ∧
    (12 : Nat) = 6 * 2 := by
  have h := peerList_compact_encoding
    [PeerRow.mk "192.0.2.1" 6881, PeerRow.mk "203.0.113.5" 51413] (by decide)
  exact ⟨h.1.trans (by decide), by decide⟩

/-- C8 counterexample: two successive init calls on a freshly
constructed MapDb perform four allocations (trie and lookup once per
call), not one each, and the caller's structures are still nil
afterwards — the first call's allocations were made into the value
receiver's copy and discarded, so the claim that the trie and lookup
index are each allocated exactly once over any sequence of init calls
is false. -/
theorem init_allocates_twice_on_two_calls :
    initSeq 2 freshMapDb = (freshMapDb, 4) ∧ freshMapDb.MapStor = none := by decide

/-- C8 amended: init never changes the caller's MapDb (value receiver);
a call whose receiver already has both structures allocates nothing, but
because init cannot install anything on the caller, a sequence of n init
calls on a fresh MapDb performs 2 * n allocations — one trie and one
lookup per call — instead of one each. -/
theorem init_value_receiver_no_op (db : MapDb) (n : Nat) (m l : StorMap)
    (i : String) (b : Bool) :
    MapDb.initCall db = db ∧
    (MapDb.initLocal (MapDb.mk i b (some m) (some l))).2 = 0 ∧
    initSeq n freshMapDb = (freshMapDb, 2 * n) := by
  refine ⟨rfl, rfl, ?_⟩
  induction n with
  | zero => rfl
  | succ k ih =>
    simp only [initSeq, MapDb.initCall, ih]
    have h2 : (MapDb.initLocal freshMapDb).2 = 2 := rfl
    rw [h2, show 2 + 2 * k = 2 * (k + 1) by omega]

/-- C9 counterexample: when the connection succeeds but the statement
execution and the commit both fail, Save still returns true for
AnnounceLog and FileUserRecord alike — the claim that Save returns a
failure indicator rather than reporting success in that case is false. -/
theorem save_true_despite_exec_failure :
    (AnnounceLog.Save aEx (SqlOutcome.mk none (some "exec failed") false)).ok = true ∧
    (FileUserRecord.Save fuEx (SqlOutcome.mk none (some "exec failed") false)).ok = true := by
  decide

/-- C9 amended: a failed connection attempt is logged and Save returns
false, and a failed statement execution is logged (by Execl) — but Save
returns true whenever the connection succeeded, regardless of execution
or commit outcome, for AnnounceLog and FileUserRecord alike. -/
theorem save_ok_iff_connected (a : AnnounceLog) (f : FileUserRecord) (o : SqlOutcome) :
    ((AnnounceLog.Save a o).ok = o.connErr.isNone ∧
     (FileUserRecord.Save f o).ok = o.connErr.isNone) ∧
    (∀ e, o.connErr = some e →
      (AnnounceLog.Save a o).log = [e] ∧ (AnnounceLog.Save a o).ok = false) ∧
    (∀ e, o.connErr = none → o.execErr = some e →
      (AnnounceLog.Save a o).log = [e] ∧ (AnnounceLog.Save a o).ok = true) := by
  obtain ⟨ce, ee, co⟩ := o
  cases ce <;> cases ee <;>
    simp [AnnounceLog.Save, FileUserRecord.Save]

/-- C9 witness: instantiating the amended theorem at a concrete outcome
whose connection succeeded and whose execution failed. -/
theorem save_ok_iff_connected_witness :
    (AnnounceLog.Save aEx (SqlOutcome.mk none (some "boom") true)).log = ["boom"] ∧
    (AnnounceLog.Save aEx (SqlOutcome.mk none (some "boom") true)).ok = true :=
  (save_ok_iff_connected aEx fuEx (SqlOutcome.mk none (some "boom") true)).2.2 "boom" rfl rfl

/-- C10: the busy-wait loop of MapDb.Shutdown reads the Busy field of
its value receiver, which nothing in the loop body changes, so for any
amount of fuel the loop exits and emits the stopping log message exactly
when Busy was false at the moment of the call, and spins forever when
Busy was true. -/
theorem shutdown_terminates_iff_not_busy (db : MapDb) (n : Nat) :
    shutdownLoop n db = if db.Busy then none else some ["stopping MapDb"] := by
  induction n with
  | zero => rfl
  | succ k ih => by_cases h : db.Busy <;> simp [shutdownLoop, h, ih]
